import Mathlib

/-!
Verification of the debate orchestration engine of The Socratic Arena.

The definitions below are a shallow embedding of
`src/backend/services/ai/debate.js` (`invokeActor`, `runDebate`) together
with, where explicitly marked, a model of the cancellation/pacing-aware
orchestrator described by the specification (its implementation is not part
of the sources available under `src/`, only its caller in the controller is).

Modelling conventions:
- JavaScript values that are checked with `typeof x !== "string"` are
  embedded as `JSVal` (a string, or some non-string value).
- A thrown JavaScript `Error` is embedded as `Except.error msg`, where
  `msg` is the `message` field of the error (the only part the code reads).
- An `async` function is embedded as a pure function; its returned promise
  resolving to `v` is `Except.ok v`, rejecting is `Except.error`.
- `String.prototype.trim` is embedded as `jsTrim`, ECMAScript trimming over
  the whitespace code points listed in `isJsWs`.
- Actors (externally supplied callbacks) are embedded as functions from the
  two call arguments to an outcome; quantifying over these functions
  quantifies over actor behaviours.
-/

/-- Embedding of a JavaScript value that the code tests with
`!x || typeof x !== "string" || !x.trim()`: either an actual string, or any
non-string value (null, undefined, number, object, ...). -/
inductive JSVal where
  | str (s : String)
  | nonString
deriving Repr, DecidableEq

/-- ECMAScript WhiteSpace / LineTerminator code points recognised by
`String.prototype.trim` (the ones relevant to this development). -/
def isJsWs (ch : Char) : Bool :=
  ch = ' ' || ch = '\t' || ch = '\n' || ch = '\r' ||
  ch = '\x0b' || ch = '\x0c' || ch = ' ' || ch = '﻿' ||
  ch = ' ' || ch = ' '

/-- Embedding of JavaScript `s.trim()`: drop leading and trailing
whitespace code points. -/
def jsTrim (s : String) : String :=
  String.mk (((s.data.dropWhile isJsWs).reverse.dropWhile isJsWs).reverse)

/-- Raw value produced by an underlying actor call, as validated by
`invokeActor`: either a string, or some unusable non-string value. -/
inductive ActorOutput where
  | str (s : String)
  | nonString
deriving Repr, DecidableEq

/-- Embedding of an actor chain object: optional `respond` and `invoke`
members. Each member takes the `topic` and `priorContext` fields of the
payload and either returns a raw output or throws. -/
structure ActorObj where
  respond : Option (String → String → Except String ActorOutput)
  invoke : Option (String → String → Except String ActorOutput)

/-- An actor argument as passed in JavaScript: possibly null/undefined. -/
abbrev ActorRef := Option ActorObj

/-- Message of the error thrown by `invokeActor` on an invalid actor shape. -/
def invalidActorMsg : String :=
  "Invalid actor chain. Expected an object with respond() or invoke()."

/-- Message of the error thrown by `invokeActor` on an unusable response. -/
def emptyResponseMsg : String :=
  "Actor returned an empty or invalid response."

/-- Message of the error thrown by `runDebate` on an invalid topic. -/
def invalidTopicMsg : String :=
  "A non-empty initialTopic string is required to run a debate."

/-- Sentinel prior-context value used when the transcript is still empty. -/
def noTurnsSentinel : String := "No previous turns yet."

/-- Text prepended to the error message in the System turn appended by the
catch block of `runDebate`. -/
def errorTextPre : String := "Debate stopped early due to an error: "

/-- Validation performed by `invokeActor` on the raw output of the call:
`if (!rawOutput || typeof rawOutput !== "string" || !rawOutput.trim()) throw`;
on success the trimmed string is returned. -/
def validateRaw : Except String ActorOutput → Except String String
  | Except.error e => Except.error e
  | Except.ok ActorOutput.nonString => Except.error emptyResponseMsg
  | Except.ok (ActorOutput.str s) =>
      if jsTrim s = "" then Except.error emptyResponseMsg
      else Except.ok (jsTrim s)

/-- Embedding of `invokeActor` from `debate.js`: validates the actor shape,
prefers `respond` over `invoke`, and validates the raw output. -/
def invokeActor (actor : ActorRef) (topic priorContext : String) :
    Except String String :=
  match actor with
  | none => Except.error invalidActorMsg
  | some a =>
    match a.respond, a.invoke with
    | none, none => Except.error invalidActorMsg
    | some f, _ => validateRaw (f topic priorContext)
    | none, some f => validateRaw (f topic priorContext)

/-- One transcript entry `{ speaker, text }`. -/
structure Turn where
  speaker : String
  text : String
deriving Repr, DecidableEq

/-- Record of one call made to `invokeActor` during a run: which role was
invoked and the two arguments that were passed. -/
structure Call where
  role : String
  topic : String
  priorContext : String
deriving Repr, DecidableEq

/-- Serialization of one turn, `` `${turn.speaker}: ${turn.text}` ``. -/
def turnLine (t : Turn) : String := t.speaker ++ ": " ++ t.text

/-- Serialization of a transcript used as prior context:
`transcript.map(...).join("\n")`. -/
def serializeTranscript (ts : List Turn) : String :=
  String.intercalate "\n" (ts.map turnLine)

/-- Instruction built for the Critic in a given round from `criticPrompt`
(the trimmed initial topic in round 1, the latest Defender text later). -/
def criticInstruction (roundNumber : Nat) (criticPrompt : String) : String :=
  if roundNumber = 1 then
    "Round " ++ toString roundNumber ++
      ": Analyze this topic and open with a strong critique, identifying key flaws.\n\nTopic:\n" ++
      criticPrompt
  else
    "Round " ++ toString roundNumber ++
      ": Attack the Defender\x27s previous argument and expose weaknesses.\n\nDefender\x27s last point:\n" ++
      criticPrompt

/-- Instruction built for the Defender in a given round from the Critic text
just produced. -/
def defenderInstruction (roundNumber : Nat) (criticText : String) : String :=
  "Round " ++ toString roundNumber ++
    ": Defend the document against the Critic\x27s latest argument.\n\nCritic\x27s claim:\n" ++
    criticText

/-- Result of the try-block of `runDebate`: the transcript accumulated in
`debateTranscript` at the moment the block finished or threw, the list of
calls made to `invokeActor` in order, and the message of the thrown error
(`none` when the block completed normally). -/
structure LoopResult where
  transcript : List Turn
  calls : List Call
  err : Option String
deriving Repr, DecidableEq

/-- Embedding of the main debate loop of `runDebate`. The first `Nat` is the
number of remaining rounds, the second the current `roundNumber`; then the
current `criticPrompt` and the transcript accumulated so far. -/
def debateLoop (defenderChain criticChain : ActorRef) :
    Nat → Nat → String → List Turn → LoopResult
  | 0, _, _, transcript => ⟨transcript, [], none⟩
  | remaining + 1, roundNumber, criticPrompt, transcript =>
    let priorContextForCritic :=
      if 0 < transcript.length then serializeTranscript transcript
      else noTurnsSentinel
    let cInstr := criticInstruction roundNumber criticPrompt
    let cCall : Call := ⟨"Critic", cInstr, priorContextForCritic⟩
    match invokeActor criticChain cInstr priorContextForCritic with
    | Except.error e => ⟨transcript, [cCall], some e⟩
    | Except.ok criticText =>
      let t1 := transcript ++ [⟨"Critic", criticText⟩]
      let priorContextForDefender := serializeTranscript t1
      let dInstr := defenderInstruction roundNumber criticText
      let dCall : Call := ⟨"Defender", dInstr, priorContextForDefender⟩
      match invokeActor defenderChain dInstr priorContextForDefender with
      | Except.error e => ⟨t1, [cCall, dCall], some e⟩
      | Except.ok defenderText =>
        let t2 := t1 ++ [⟨"Defender", defenderText⟩]
        let rest :=
          debateLoop defenderChain criticChain remaining (roundNumber + 1)
            defenderText t2
        ⟨rest.transcript, cCall :: dCall :: rest.calls, rest.err⟩

/-- Embedding of `Number.isInteger(totalRounds) && totalRounds > 0 ?
totalRounds : 3`. The argument is `some i` when the JavaScript value is an
integer number `i` and `none` otherwise (omitted, non-number, non-integer). -/
def jsRounds (totalRounds : Option Int) : Nat :=
  match totalRounds with
  | some i => if 0 < i then i.toNat else 3
  | none => 3

/-- Embedding of the try-block of `runDebate`: topic validation followed by
the debate loop. -/
def runDebateBody (defenderChain criticChain : ActorRef) (initialTopic : JSVal)
    (totalRounds : Option Int) : LoopResult :=
  match initialTopic with
  | JSVal.nonString => ⟨[], [], some invalidTopicMsg⟩
  | JSVal.str s =>
    if jsTrim s = "" then ⟨[], [], some invalidTopicMsg⟩
    else debateLoop defenderChain criticChain (jsRounds totalRounds) 1 (jsTrim s) []

/-- System turn appended by the catch block of `runDebate`. -/
def systemTurn (msg : String) : Turn :=
  ⟨"System", errorTextPre ++ msg⟩

/-- Embedding of `runDebate` from `debate.js`. The returned promise is an
`Except`: `Except.ok` is resolution with the transcript, `Except.error`
would be rejection. The catch block absorbs any error thrown in the body
into a trailing System turn. -/
def runDebate (defenderChain criticChain : ActorRef) (initialTopic : JSVal)
    (totalRounds : Option Int) : Except String (List Turn) :=
  let r := runDebateBody defenderChain criticChain initialTopic totalRounds
  match r.err with
  | none => Except.ok r.transcript
  | some msg => Except.ok (r.transcript ++ [systemTurn msg])

/-- Modelled from the spec: the cancellation-aware and pacing-aware debate
orchestrator (spec sections 4.3, 4.4 and 5). The implementation called by the
controller (`runDebate(defender, critic, topic, rounds, onTurn, { shouldCancel })`)
is not among the sources under `src/`; only `debate.js`s earlier,
cancellation-free version and the controller that calls the full version are.
`SpecEvent` is one observable step of that orchestrator: a round-start
cancellation check, an actor call, a turn being appended/emitted, or a pacing
wait (recording whether the cancellation poll inside it observed a stop
request). -/
inductive SpecEvent where
  | roundCheck (n : Nat) (observedCancel : Bool)
  | criticCall (n : Nat)
  | criticTurn (n : Nat)
  | criticPacing (n : Nat) (observedCancel : Bool)
  | defenderCall (n : Nat)
  | defenderTurn (n : Nat)
  | defenderPacing (n : Nat) (observedCancel : Bool)
deriving Repr, DecidableEq

/-- Modelled from the spec: the terminal outcome of a run (spec section 4.4):
`Completed`, `Cancelled`, or `Failed` carrying the error. -/
inductive SpecOutcome where
  | completed
  | cancelled
  | failed (msg : String)
deriving Repr, DecidableEq

/-- Modelled from the spec: the result of one orchestrator run — the
transcript, the ordered trace of observable events, and the outcome. -/
structure SpecRun where
  transcript : List Turn
  trace : List SpecEvent
  outcome : SpecOutcome
deriving Repr, DecidableEq

/-- Modelled from the spec: the single System turn appended on cancellation
("stopped by user, no further calls made"). -/
def cancelledTurn : Turn :=
  ⟨"System", "Debate stopped by user; no further calls made."⟩

/-- Modelled from the spec: the single System turn appended on failure,
describing the stop reason. -/
def specFailTurn (msg : String) : Turn := ⟨"System", errorTextPre ++ msg⟩

/-- Modelled from the spec: the per-round protocol of the orchestrator
(spec section 4.4, steps 1-8). `cancel k` is the value of the CancellationFlag
at the k-th cancellation check of the run (checks happen at round start and
once per pacing wait; the several 250 ms polls of one wait are collapsed into
the one check that decides whether that wait observes cancellation).
`criticB`/`defenderB` give the behaviour of each actor per round: the text it
produces, or the error it fails with. Arguments: remaining rounds, current
round number, index of the next cancellation check, transcript so far. -/
def specLoop (cancel : Nat → Bool) (criticB defenderB : Nat → Except String String) :
    Nat → Nat → Nat → List Turn → SpecRun
  | 0, _, _, transcript => ⟨transcript, [], SpecOutcome.completed⟩
  | remaining + 1, n, checkIdx, transcript =>
    if cancel checkIdx then
      ⟨transcript ++ [cancelledTurn], [SpecEvent.roundCheck n true],
        SpecOutcome.cancelled⟩
    else
      match criticB n with
      | Except.error e =>
        ⟨transcript ++ [specFailTurn e],
          [SpecEvent.roundCheck n false, SpecEvent.criticCall n],
          SpecOutcome.failed e⟩
      | Except.ok ct =>
        let t1 := transcript ++ [⟨"Critic", ct⟩]
        if cancel (checkIdx + 1) then
          ⟨t1 ++ [cancelledTurn],
            [SpecEvent.roundCheck n false, SpecEvent.criticCall n,
              SpecEvent.criticTurn n, SpecEvent.criticPacing n true],
            SpecOutcome.cancelled⟩
        else
          match defenderB n with
          | Except.error e =>
            ⟨t1 ++ [specFailTurn e],
              [SpecEvent.roundCheck n false, SpecEvent.criticCall n,
                SpecEvent.criticTurn n, SpecEvent.criticPacing n false,
                SpecEvent.defenderCall n],
              SpecOutcome.failed e⟩
          | Except.ok dt =>
            let t2 := t1 ++ [⟨"Defender", dt⟩]
            if cancel (checkIdx + 2) then
              ⟨t2 ++ [cancelledTurn],
                [SpecEvent.roundCheck n false, SpecEvent.criticCall n,
                  SpecEvent.criticTurn n, SpecEvent.criticPacing n false,
                  SpecEvent.defenderCall n, SpecEvent.defenderTurn n,
                  SpecEvent.defenderPacing n true],
                SpecOutcome.cancelled⟩
            else
              let rest :=
                specLoop cancel criticB defenderB remaining (n + 1)
                  (checkIdx + 3) t2
              ⟨rest.transcript,
                SpecEvent.roundCheck n false :: SpecEvent.criticCall n ::
                  SpecEvent.criticTurn n :: SpecEvent.criticPacing n false ::
                  SpecEvent.defenderCall n :: SpecEvent.defenderTurn n ::
                  SpecEvent.defenderPacing n false :: rest.trace,
                rest.outcome⟩

/-- Modelled from the spec: entry of the full orchestrator — topic validation
(fail fast with InvalidTopic, no transcript), rounds coercion, then the round
loop starting at round 1 with check index 0 and an empty transcript. -/
def specRunDebate (cancel : Nat → Bool)
    (criticB defenderB : Nat → Except String String) (initialTopic : JSVal)
    (totalRounds : Option Int) : SpecRun :=
  match initialTopic with
  | JSVal.nonString => ⟨[], [], SpecOutcome.failed invalidTopicMsg⟩
  | JSVal.str s =>
    if jsTrim s = "" then ⟨[], [], SpecOutcome.failed invalidTopicMsg⟩
    else specLoop cancel criticB defenderB (jsRounds totalRounds) 1 0 []

/-- Events of the spec orchestrator at which a cancellation request is
observed (a round-start check or a pacing poll returning true). -/
def observesCancel : SpecEvent → Bool
  | SpecEvent.roundCheck _ b => b
  | SpecEvent.criticPacing _ b => b
  | SpecEvent.defenderPacing _ b => b
  | _ => false

/-- Events of the spec orchestrator that are calls to a Persona Actor. -/
def isActorCall : SpecEvent → Bool
  | SpecEvent.criticCall _ => true
  | SpecEvent.defenderCall _ => true
  | _ => false

/-- Adjacency discipline of the spec orchestrator trace: every Defender call
directly follows the (uncancelled) critic-side pacing wait of its round, every
round-start check directly follows the (uncancelled) defender-side pacing wait
of the previous round, and every Critic call directly follows the
(uncancelled) round-start check of its round. -/
def pacedBefore (a b : SpecEvent) : Prop :=
  match b with
  | SpecEvent.criticCall n => a = SpecEvent.roundCheck n false
  | SpecEvent.defenderCall n => a = SpecEvent.criticPacing n false
  | SpecEvent.roundCheck n _ => a = SpecEvent.defenderPacing (n - 1) false
  | _ => True

/-- The debate loop only ever appends turns to the transcript it is given,
and every turn it appends is a Critic or a Defender turn (System turns are
only created by the catch block of `runDebate`). -/
lemma debateLoop_transcript_extends (d c : ActorRef) :
    ∀ remaining rn prompt t0, ∃ ext,
      (debateLoop d c remaining rn prompt t0).transcript = t0 ++ ext ∧
      ∀ t ∈ ext, t.speaker = "Critic" ∨ t.speaker = "Defender" := by
  intro remaining
  induction remaining with
  | zero =>
    intro rn prompt t0
    exact ⟨[], by simp [debateLoop], by simp⟩
  | succ r ih =>
    intro rn prompt t0
    rcases hc : invokeActor c (criticInstruction rn prompt)
        (if 0 < t0.length then serializeTranscript t0 else noTurnsSentinel) with e | ct
    · exact ⟨[], by simp [debateLoop, hc], by simp⟩
    · rcases hd : invokeActor d (defenderInstruction rn ct)
          (serializeTranscript (t0 ++ [⟨"Critic", ct⟩])) with e | dt
      · refine ⟨[⟨"Critic", ct⟩], by simp [debateLoop, hc, hd], ?_⟩
        simp
      · obtain ⟨ext', h1, h2⟩ :=
          ih (rn + 1) dt ((t0 ++ [⟨"Critic", ct⟩]) ++ [⟨"Defender", dt⟩])
        refine ⟨⟨"Critic", ct⟩ :: ⟨"Defender", dt⟩ :: ext', ?_, ?_⟩
        · simp only [debateLoop, hc, hd, h1]
          simp
        · intro t ht
          simp only [List.mem_cons] at ht
          rcases ht with rfl | rfl | h
          · exact Or.inl rfl
          · exact Or.inr rfl
          · exact h2 t h


/-- Every turn accumulated by the try-block of `runDebate` (before the catch
block runs) is a Critic or a Defender turn. -/
lemma runDebateBody_speakers (d c : ActorRef) (topic : JSVal) (tr : Option Int) :
    ∀ t ∈ (runDebateBody d c topic tr).transcript,
      t.speaker = "Critic" ∨ t.speaker = "Defender" := by
  cases topic with
  | nonString => intro t ht; simp [runDebateBody] at ht
  | str s =>
    by_cases hs : jsTrim s = ""
    · intro t ht; simp [runDebateBody, hs] at ht
    · obtain ⟨ext, h1, h2⟩ :=
        debateLoop_transcript_extends d c (jsRounds tr) 1 (jsTrim s) []
      intro t ht
      simp only [runDebateBody] at ht
      rw [if_neg hs, h1] at ht
      simp only [List.nil_append] at ht
      exact h2 t ht

/-- When the try-block completes, `runDebate` resolves with its transcript
unchanged; when it throws, `runDebate` resolves with that transcript plus the
one System turn. -/
lemma runDebate_cases (d c : ActorRef) (topic : JSVal) (tr : Option Int) :
    ((runDebateBody d c topic tr).err = none →
      runDebate d c topic tr =
        Except.ok (runDebateBody d c topic tr).transcript) ∧
    (∀ m, (runDebateBody d c topic tr).err = some m →
      runDebate d c topic tr =
        Except.ok ((runDebateBody d c topic tr).transcript ++ [systemTurn m])) := by
  constructor
  · intro h; simp [runDebate, h]
  · intro m h; simp [runDebate, h]

/-- C2: for every input and every actor behaviour, the transcript `runDebate`
resolves with is exactly the turns successfully produced before termination
(the transcript of the try-block, built in production order, all of whose
turns are Critic or Defender turns), plus at most one trailing System turn —
exactly one when the body threw, none when it completed — so a System turn
never appears anywhere but the end, and never more than once. -/
theorem runDebate_transcript_invariant (d c : ActorRef) (topic : JSVal)
    (tr : Option Int) :
    (∀ t ∈ (runDebateBody d c topic tr).transcript,
        t.speaker = "Critic" ∨ t.speaker = "Defender") ∧
    ((runDebateBody d c topic tr).err = none →
      runDebate d c topic tr =
        Except.ok (runDebateBody d c topic tr).transcript) ∧
    (∀ m, (runDebateBody d c topic tr).err = some m →
      runDebate d c topic tr =
        Except.ok ((runDebateBody d c topic tr).transcript ++ [systemTurn m])) :=
  ⟨runDebateBody_speakers d c topic tr, runDebate_cases d c topic tr⟩

/-- Witness for C2: on a run whose very first actor call fails (both actors
are null), the body throws the invalid-actor error with an empty transcript,
and the result is that transcript plus the single System turn. -/
theorem runDebate_transcript_invariant_witness :
    runDebate none none (JSVal.str "t") none =
      Except.ok ((runDebateBody none none (JSVal.str "t") none).transcript ++
        [systemTurn invalidActorMsg]) :=
  (runDebate_transcript_invariant none none (JSVal.str "t") none).2.2
    invalidActorMsg rfl

/-- C7: when the try-block of `runDebate` throws with message `m` (for an
upstream failure, `m` is exactly the caller-visible `error.message`), the
single appended System turn has as its text the fixed user-facing marker
followed by `m` and nothing else — no further upstream error content appears
in the System turn. -/
theorem runDebate_system_turn_text (d c : ActorRef) (topic : JSVal)
    (tr : Option Int) (m : String) :
    (runDebateBody d c topic tr).err = some m →
    runDebate d c topic tr =
      Except.ok ((runDebateBody d c topic tr).transcript ++
        [⟨"System", errorTextPre ++ m⟩]) := by
  intro h
  exact (runDebate_cases d c topic tr).2 m h

/-- Actor that always fails with a fixed upstream error message. -/
def boomActor : ActorRef :=
  some ⟨some (fun _ _ => Except.error "upstream boom"), none⟩

/-- Actor that always responds with the non-empty string "x". -/
def okActor : ActorRef :=
  some ⟨some (fun _ _ => Except.ok (ActorOutput.str "x")), none⟩

/-- Witness for C7: a run whose Critic fails upstream with message
"upstream boom" resolves with the System turn carrying exactly the marker
plus that message. -/
theorem runDebate_system_turn_text_witness :
    runDebate okActor boomActor (JSVal.str "t") none =
      Except.ok ((runDebateBody okActor boomActor (JSVal.str "t") none).transcript ++
        [⟨"System", errorTextPre ++ "upstream boom"⟩]) :=
  runDebate_system_turn_text okActor boomActor (JSVal.str "t") none
    "upstream boom" rfl

/-- C10: `runDebate` never rejects: for every input (including invalid topics
and invalid actors) and every actor behaviour (including throwing actors) it
resolves with a transcript list — every failure is absorbed by the
surrounding try/catch — and the result always has the same shape, a list of
Critic/Defender/System turns. -/
theorem runDebate_always_resolves (d c : ActorRef) (topic : JSVal)
    (tr : Option Int) :
    ∃ ts, runDebate d c topic tr = Except.ok ts ∧
      ∀ t ∈ ts,
        t.speaker = "Critic" ∨ t.speaker = "Defender" ∨ t.speaker = "System" := by
  rcases h : (runDebateBody d c topic tr).err with _ | m
  · refine ⟨(runDebateBody d c topic tr).transcript,
      (runDebate_cases d c topic tr).1 h, ?_⟩
    intro t ht
    rcases runDebateBody_speakers d c topic tr t ht with h' | h'
    · exact Or.inl h'
    · exact Or.inr (Or.inl h')
  · refine ⟨(runDebateBody d c topic tr).transcript ++ [systemTurn m],
      (runDebate_cases d c topic tr).2 m h, ?_⟩
    intro t ht
    rcases List.mem_append.mp ht with h' | h'
    · rcases runDebateBody_speakers d c topic tr t h' with h'' | h''
      · exact Or.inl h''
      · exact Or.inr (Or.inl h'')
    · simp only [List.mem_singleton] at h'
      subst h'
      exact Or.inr (Or.inr rfl)

/-- Dropping leading whitespace is a no-op after a left-then-right trim. -/
lemma dropWhile_after_trim (l : List Char) :
    List.dropWhile isJsWs (List.rdropWhile isJsWs (List.dropWhile isJsWs l)) =
      List.rdropWhile isJsWs (List.dropWhile isJsWs l) := by
  have hpre := List.rdropWhile_prefix isJsWs (List.dropWhile isJsWs l)
  rcases hB : List.rdropWhile isJsWs (List.dropWhile isJsWs l) with _ | ⟨b, B⟩
  · simp
  · rw [hB] at hpre
    rw [List.dropWhile_eq_self_iff]
    intro hl
    have hlen : 0 < (List.dropWhile isJsWs l).length := by
      have := hpre.length_le
      simp only [List.length_cons] at this
      omega
    have hhead := List.dropWhile_get_zero_not isJsWs l hlen
    have hget := List.IsPrefix.getElem hpre
      (show 0 < (b :: B).length by simp)
    simp only [List.get_eq_getElem] at hhead ⊢
    rw [hget]
    exact hhead

/-- ECMAScript trimming is idempotent. -/
lemma jsTrim_idem (s : String) : jsTrim (jsTrim s) = jsTrim s := by
  show String.mk
      (List.rdropWhile isJsWs (List.dropWhile isJsWs
        (List.rdropWhile isJsWs (List.dropWhile isJsWs s.data)))) =
    String.mk (List.rdropWhile isJsWs (List.dropWhile isJsWs s.data))
  rw [dropWhile_after_trim, List.rdropWhile_idempotent]

/-- Every successful result of output validation is a non-empty string that
is fixed by trimming. -/
lemma validateRaw_ok (x : Except String ActorOutput) (r : String)
    (hr : validateRaw x = Except.ok r) : r ≠ "" ∧ jsTrim r = r := by
  rcases x with e | o
  · simp [validateRaw] at hr
  · rcases o with s | _
    · by_cases hs : jsTrim s = ""
      · simp [validateRaw, hs] at hr
      · simp only [validateRaw, if_neg hs, Except.ok.injEq] at hr
        subst hr
        exact ⟨hs, jsTrim_idem s⟩
    · simp [validateRaw] at hr

/-- C5: `invokeActor` fails with the invalid-actor error exactly on actors
exposing neither `respond` nor `invoke`; with the chosen capability `f`
(`respond` preferred, else `invoke`) it propagates an underlying failure
untouched, returns the trimmed text when the raw output is a string with
non-whitespace content, and fails with the empty-response error when the raw
output is unusable; and every successful return value is a non-empty string
fixed by trimming. -/
theorem invokeActor_contract (a : ActorRef) (t c : String) :
    ((a = none ∨ ∃ o, a = some o ∧ o.respond = none ∧ o.invoke = none) →
        invokeActor a t c = Except.error invalidActorMsg) ∧
    (∀ o f, a = some o →
        (o.respond = some f ∨ o.respond = none ∧ o.invoke = some f) →
        ((∀ e, f t c = Except.error e → invokeActor a t c = Except.error e) ∧
         (∀ s, f t c = Except.ok (ActorOutput.str s) → jsTrim s ≠ "" →
            invokeActor a t c = Except.ok (jsTrim s)) ∧
         (∀ out, f t c = Except.ok out →
            (out = ActorOutput.nonString ∨
              ∃ s, out = ActorOutput.str s ∧ jsTrim s = "") →
            invokeActor a t c = Except.error emptyResponseMsg))) ∧
    (∀ r, invokeActor a t c = Except.ok r → r ≠ "" ∧ jsTrim r = r) := by
  refine ⟨?_, ?_, ?_⟩
  · intro h
    rcases h with rfl | ⟨o, rfl, h1, h2⟩
    · rfl
    · simp [invokeActor, h1, h2]
  · intro o f ha hof
    subst ha
    have hact : invokeActor (some o) t c = validateRaw (f t c) := by
      rcases hof with h | ⟨h1, h2⟩
      · simp [invokeActor, h]
      · simp [invokeActor, h1, h2]
    refine ⟨?_, ?_, ?_⟩
    · intro e he
      rw [hact, he]
      rfl
    · intro s hs hne
      rw [hact, hs]
      simp [validateRaw, hne]
    · intro out hout hbad
      rw [hact, hout]
      rcases hbad with rfl | ⟨s, rfl, hs⟩
      · rfl
      · simp [validateRaw, hs]
  · intro r hr
    cases a with
    | none => simp [invokeActor] at hr
    | some o =>
      rcases h1 : o.respond with _ | f
      · rcases h2 : o.invoke with _ | g
        · rw [show invokeActor (some o) t c = Except.error invalidActorMsg by
            simp [invokeActor, h1, h2]] at hr
          simp at hr
        · rw [show invokeActor (some o) t c = validateRaw (g t c) by
            simp [invokeActor, h1, h2]] at hr
          exact validateRaw_ok _ _ hr
      · rw [show invokeActor (some o) t c = validateRaw (f t c) by
          simp [invokeActor, h1]] at hr
        exact validateRaw_ok _ _ hr

/-- Witness for C5: the contract evaluated on a null actor, an actor whose
call fails upstream, and an actor responding with the plain string "x". -/
theorem invokeActor_contract_witness :
    invokeActor none "a" "b" = Except.error invalidActorMsg ∧
    invokeActor boomActor "a" "b" = Except.error "upstream boom" ∧
    invokeActor okActor "a" "b" = Except.ok (jsTrim "x") ∧
    ("x" ≠ "" ∧ jsTrim "x" = "x") :=
  ⟨(invokeActor_contract none "a" "b").1 (Or.inl rfl),
   ((invokeActor_contract boomActor "a" "b").2.1 _ _ rfl (Or.inl rfl)).1
     "upstream boom" rfl,
   ((invokeActor_contract okActor "a" "b").2.1 _ _ rfl (Or.inl rfl)).2.1
     "x" rfl (by decide),
   (invokeActor_contract okActor "a" "b").2.2 "x" rfl⟩

/-- Counterexample for C4: on the whitespace-only topic " " the failure does
not come back without turns — `runDebate` resolves with a transcript holding
one System turn, so the invalid-topic failure does carry a turn. -/
theorem runDebate_invalid_topic_counterexample :
    runDebate none none (JSVal.str " ") none =
      Except.ok [⟨"System", errorTextPre ++ invalidTopicMsg⟩] ∧
    ([(⟨"System", errorTextPre ++ invalidTopicMsg⟩ : Turn)] : List Turn) ≠ [] := by
  exact ⟨rfl, by simp⟩

/-- C4 (amended): if `initialTopic` is empty, not a string, or
whitespace-only, the run fails with the invalid-topic error before any actor
is invoked (the result does not depend on the actors at all), but the failure
does not come back turn-free: the catch block absorbs it, so `runDebate`
resolves with a transcript of exactly one System turn reporting the invalid
topic and no Critic/Defender turns. -/
theorem runDebate_invalid_topic (d c : ActorRef) (topic : JSVal)
    (tr : Option Int) :
    (topic = JSVal.nonString ∨ ∃ s, topic = JSVal.str s ∧ jsTrim s = "") →
    runDebate d c topic tr = Except.ok [systemTurn invalidTopicMsg] := by
  intro h
  rcases h with rfl | ⟨s, rfl, hs⟩
  · rfl
  · simp [runDebate, runDebateBody, hs]

/-- Witness for C4 (amended): the empty-string topic with live actors. -/
theorem runDebate_invalid_topic_witness :
    runDebate okActor okActor (JSVal.str "") (some 5) =
      Except.ok [systemTurn invalidTopicMsg] :=
  runDebate_invalid_topic okActor okActor (JSVal.str "") (some 5)
    (Or.inr ⟨"", rfl, rfl⟩)

/-- An actor whose invocation through `invokeActor` succeeds on every call
(deterministically, since behaviours are functions of the call arguments). -/
def alwaysSucceeds (actor : ActorRef) : Prop :=
  ∀ t c, ∃ s, invokeActor actor t c = Except.ok s

/-- Characterisation of the debate loop when both actors succeed on every
call: it finishes without error, appends exactly two turns per round
(Critic then Defender), makes exactly two calls per round, passes as prior
context the serialized transcript so far (or the sentinel on the very first
call of the run), and every call after the first receives an instruction
ending verbatim in the text of the immediately preceding turn. Positions are
measured from the start of the run: the loop is invoked with `t0` turns
already produced, so call `j` of this invocation is call `t0.length + j` of
the run. -/
lemma debateLoop_success (d c : ActorRef) (hd : alwaysSucceeds d)
    (hc : alwaysSucceeds c) :
    ∀ remaining rn prompt t0,
      (rn = 1 ∧ t0 = [] ∨
        2 ≤ rn ∧ ∃ tn, t0.getLast? = some tn ∧ tn.text = prompt) →
      ∃ ext,
        (debateLoop d c remaining rn prompt t0).transcript = t0 ++ ext ∧
        (debateLoop d c remaining rn prompt t0).err = none ∧
        ext.length = 2 * remaining ∧
        (debateLoop d c remaining rn prompt t0).calls.length = 2 * remaining ∧
        (∀ j t, ext[j]? = some t →
          t.speaker = if j % 2 = 0 then "Critic" else "Defender") ∧
        (∀ j cl, (debateLoop d c remaining rn prompt t0).calls[j]? = some cl →
          cl.role = if j % 2 = 0 then "Critic" else "Defender") ∧
        (∀ j cl, (debateLoop d c remaining rn prompt t0).calls[j]? = some cl →
          cl.priorContext = if t0.length + j = 0 then noTurnsSentinel
            else serializeTranscript ((t0 ++ ext).take (t0.length + j))) ∧
        (∀ j cl, (debateLoop d c remaining rn prompt t0).calls[j]? = some cl →
          1 ≤ t0.length + j →
          ∃ p tn, (t0 ++ ext)[t0.length + j - 1]? = some tn ∧
            cl.topic = p ++ tn.text) := by
  intro remaining
  induction remaining with
  | zero =>
    intro rn prompt t0 _
    refine ⟨[], by simp [debateLoop], by simp [debateLoop], by simp,
      by simp [debateLoop], ?_, ?_, ?_, ?_⟩
    · intro j t hj
      simp at hj
    · intro j cl hj
      simp [debateLoop] at hj
    · intro j cl hj
      simp [debateLoop] at hj
    · intro j cl hj
      simp [debateLoop] at hj
  | succ r ih =>
    intro rn prompt t0 hinv
    obtain ⟨ct, hct⟩ := hc (criticInstruction rn prompt)
      (if 0 < t0.length then serializeTranscript t0 else noTurnsSentinel)
    obtain ⟨dt, hdt⟩ := hd (defenderInstruction rn ct)
      (serializeTranscript (t0 ++ [⟨"Critic", ct⟩]))
    have hrn1 : 1 ≤ rn := by
      rcases hinv with ⟨h, _⟩ | ⟨h, _⟩ <;> omega
    have hinv2 : rn + 1 = 1 ∧
        ((t0 ++ [⟨"Critic", ct⟩]) ++ [⟨"Defender", dt⟩] : List Turn) = [] ∨
        2 ≤ rn + 1 ∧ ∃ tn,
          ((t0 ++ [(⟨"Critic", ct⟩ : Turn)]) ++
            [(⟨"Defender", dt⟩ : Turn)]).getLast? = some tn ∧
          tn.text = dt :=
      Or.inr ⟨by omega, ⟨"Defender", dt⟩, List.getLast?_concat _, rfl⟩
    obtain ⟨ext', htr', herr', hlenE', hlenC', hspk', hrole', hctx', htop'⟩ :=
      ih (rn + 1) dt ((t0 ++ [⟨"Critic", ct⟩]) ++ [⟨"Defender", dt⟩]) hinv2
    have hstep : debateLoop d c (r + 1) rn prompt t0 =
        ⟨(debateLoop d c r (rn + 1) dt
            ((t0 ++ [⟨"Critic", ct⟩]) ++ [⟨"Defender", dt⟩])).transcript,
          ⟨"Critic", criticInstruction rn prompt,
            if 0 < t0.length then serializeTranscript t0 else noTurnsSentinel⟩ ::
          ⟨"Defender", defenderInstruction rn ct,
            serializeTranscript (t0 ++ [⟨"Critic", ct⟩])⟩ ::
          (debateLoop d c r (rn + 1) dt
            ((t0 ++ [⟨"Critic", ct⟩]) ++ [⟨"Defender", dt⟩])).calls,
          (debateLoop d c r (rn + 1) dt
            ((t0 ++ [⟨"Critic", ct⟩]) ++ [⟨"Defender", dt⟩])).err⟩ := by
      simp only [debateLoop, hct, hdt]
    have hT : ((t0 ++ [⟨"Critic", ct⟩]) ++ [⟨"Defender", dt⟩]) ++ ext' =
        t0 ++ (⟨"Critic", ct⟩ :: ⟨"Defender", dt⟩ :: ext') := by
      simp [List.append_assoc]
    have hL : ((t0 ++ [⟨"Critic", ct⟩]) ++ [⟨"Defender", dt⟩] : List Turn).length =
        t0.length + 2 := by
      simp
    refine ⟨⟨"Critic", ct⟩ :: ⟨"Defender", dt⟩ :: ext', ?_, ?_, ?_, ?_, ?_, ?_, ?_, ?_⟩
    · rw [hstep]
      rw [htr'] at *
      exact hT
    · rw [hstep]
      exact herr'
    · simp only [List.length_cons, hlenE']
      omega
    · rw [hstep]
      simp only [List.length_cons, hlenC']
      omega
    · intro j t hj
      match j with
      | 0 =>
        simp only [List.getElem?_cons_zero, Option.some.injEq] at hj
        subst hj
        rfl
      | 1 =>
        simp only [List.getElem?_cons_succ, List.getElem?_cons_zero,
          Option.some.injEq] at hj
        subst hj
        rfl
      | (j + 2) =>
        simp only [List.getElem?_cons_succ] at hj
        have hmod : (j + 2) % 2 = j % 2 := by omega
        rw [hmod]
        exact hspk' j t hj
    · intro j cl hj
      rw [hstep] at hj
      match j with
      | 0 =>
        simp only [List.getElem?_cons_zero, Option.some.injEq] at hj
        subst hj
        rfl
      | 1 =>
        simp only [List.getElem?_cons_succ, List.getElem?_cons_zero,
          Option.some.injEq] at hj
        subst hj
        rfl
      | (j + 2) =>
        simp only [List.getElem?_cons_succ] at hj
        have hmod : (j + 2) % 2 = j % 2 := by omega
        rw [hmod]
        exact hrole' j cl hj
    · intro j cl hj
      rw [hstep] at hj
      match j with
      | 0 =>
        simp only [List.getElem?_cons_zero, Option.some.injEq] at hj
        subst hj
        by_cases h0 : t0.length = 0
        · simp [h0, List.length_eq_zero.mp h0]
        · rw [if_pos (by omega : 0 < t0.length),
            if_neg (by omega : ¬ t0.length + 0 = 0)]
          rw [Nat.add_zero, List.take_left]
      | 1 =>
        simp only [List.getElem?_cons_succ, List.getElem?_cons_zero,
          Option.some.injEq] at hj
        subst hj
        rw [if_neg (by omega : ¬ t0.length + 1 = 0)]
        show serializeTranscript (t0 ++ [⟨"Critic", ct⟩]) = _
        congr 1
        rw [List.take_append_eq_append_take,
          List.take_of_length_le (by omega : t0.length ≤ t0.length + 1)]
        congr 1
        have : t0.length + 1 - t0.length = 1 := by omega
        rw [this]
        rfl
      | (j + 2) =>
        simp only [List.getElem?_cons_succ] at hj
        have h := hctx' j cl hj
        rw [hT] at h
        rw [hL] at h
        have hidx : t0.length + 2 + j = t0.length + (j + 2) := by omega
        rw [hidx] at h
        rw [h]
    · intro j cl hj h1
      rw [hstep] at hj
      match j with
      | 0 =>
        simp only [List.getElem?_cons_zero, Option.some.injEq] at hj
        subst hj
        rcases hinv with ⟨_, h0⟩ | ⟨hrn2, tn, hlast, htext⟩
        · subst h0
          simp at h1
        · refine ⟨"Round " ++ toString rn ++
            ": Attack the Defender\x27s previous argument and expose weaknesses.\n\nDefender\x27s last point:\n",
            tn, ?_, ?_⟩
          · rw [List.getElem?_append_left (by omega : t0.length + 0 - 1 < t0.length)]
            rw [Nat.add_zero, ← List.getLast?_eq_getElem?]
            exact hlast
          · show criticInstruction rn prompt = _
            rw [criticInstruction, if_neg (by omega : ¬ rn = 1), htext]
      | 1 =>
        simp only [List.getElem?_cons_succ, List.getElem?_cons_zero,
          Option.some.injEq] at hj
        subst hj
        refine ⟨"Round " ++ toString rn ++
          ": Defend the document against the Critic\x27s latest argument.\n\nCritic\x27s claim:\n",
          ⟨"Critic", ct⟩, ?_, ?_⟩
        · have : t0.length + 1 - 1 = t0.length := by omega
          rw [this, List.getElem?_append_right (le_refl t0.length)]
          simp
        · show defenderInstruction rn ct = _
          rw [defenderInstruction]
      | (j + 2) =>
        simp only [List.getElem?_cons_succ] at hj
        obtain ⟨p, tn, hidx', htopic⟩ := htop' j cl hj (by omega)
        refine ⟨p, tn, ?_, htopic⟩
        rw [hT] at hidx'
        rw [hL] at hidx'
        have : t0.length + 2 + j - 1 = t0.length + (j + 2) - 1 := by omega
        rw [this] at hidx'
        exact hidx'

/-- The actor used in witnesses always succeeds. -/
lemma okActor_succeeds : alwaysSucceeds okActor := fun _ _ => ⟨"x", rfl⟩

/-- On a valid topic the try-block is exactly the debate loop started on the
trimmed topic with an empty transcript. -/
lemma runDebateBody_valid (d c : ActorRef) (s : String) (hs : jsTrim s ≠ "")
    (tr : Option Int) :
    runDebateBody d c (JSVal.str s) tr =
      debateLoop d c (jsRounds tr) 1 (jsTrim s) [] := by
  simp [runDebateBody, hs]

/-- Common core of the completed-run claims: with a valid topic and both
actors succeeding on every call, the run resolves with a transcript of
exactly twice the coerced round count. -/
lemma runDebate_success_length (d c : ActorRef) (hd : alwaysSucceeds d)
    (hc : alwaysSucceeds c) (s : String) (hs : jsTrim s ≠ "") (tr : Option Int)
    (m : Nat) (hm : jsRounds tr = m) :
    ∃ ts, runDebate d c (JSVal.str s) tr = Except.ok ts ∧
      ts.length = 2 * m ∧
      (∀ j t, ts[j]? = some t →
        t.speaker = if j % 2 = 0 then "Critic" else "Defender") := by
  obtain ⟨ext, htr, herr, hlen, _, hspk, _, _, _⟩ :=
    debateLoop_success d c hd hc m 1 (jsTrim s) [] (Or.inl ⟨rfl, rfl⟩)
  have hbody : runDebateBody d c (JSVal.str s) tr =
      debateLoop d c m 1 (jsTrim s) [] := by
    rw [runDebateBody_valid d c s hs tr, hm]
  have hok := (runDebate_cases d c (JSVal.str s) tr).1 (by rw [hbody]; exact herr)
  rw [hbody, htr, List.nil_append] at hok
  exact ⟨ext, hok, hlen, hspk⟩

/-- C1: for every `totalRounds = n ≥ 1`, if both actors succeed on every
call (deterministically: behaviours are functions of the call arguments),
`runDebate` on a valid topic resolves with a transcript of exactly `2n`
turns, alternating Critic, Defender, Critic, Defender, ... — in particular
with no System turn. -/
theorem runDebate_completed_shape (d c : ActorRef) (hd : alwaysSucceeds d)
    (hc : alwaysSucceeds c) (n : Nat) (hn : 1 ≤ n) (s : String)
    (hs : jsTrim s ≠ "") :
    ∃ ts, runDebate d c (JSVal.str s) (some (n : Int)) = Except.ok ts ∧
      ts.length = 2 * n ∧
      (∀ j t, ts[j]? = some t →
        t.speaker = if j % 2 = 0 then "Critic" else "Defender") := by
  have h0 : (0 : Int) < (n : Int) := by exact_mod_cast hn
  refine runDebate_success_length d c hd hc s hs (some (n : Int)) n ?_
  simp [jsRounds, h0]

/-- Witness for C1: two rounds with an echo actor give four alternating
turns. -/
theorem runDebate_completed_shape_witness :
    ∃ ts, runDebate okActor okActor (JSVal.str "topic")
        (some ((2 : Nat) : Int)) = Except.ok ts ∧
      ts.length = 2 * 2 ∧
      (∀ j t, ts[j]? = some t →
        t.speaker = if j % 2 = 0 then "Critic" else "Defender") :=
  runDebate_completed_shape okActor okActor okActor_succeeds okActor_succeeds
    2 (by decide) "topic" (by decide)

/-- C9: with a valid topic and succeeding actors, a `totalRounds` value that
is not a positive integer (not an integer number, zero, or negative) is
coerced to the default of 3 rounds rather than rejected, and every positive
integer `i` runs exactly `i` rounds (two turns per round). -/
theorem runDebate_rounds_coercion (d c : ActorRef) (hd : alwaysSucceeds d)
    (hc : alwaysSucceeds c) (s : String) (hs : jsTrim s ≠ "") (tr : Option Int) :
    ((tr = none ∨ ∃ i : Int, tr = some i ∧ i ≤ 0) →
      ∃ ts, runDebate d c (JSVal.str s) tr = Except.ok ts ∧
        ts.length = 2 * 3 ∧
        (∀ j t, ts[j]? = some t →
          t.speaker = if j % 2 = 0 then "Critic" else "Defender")) ∧
    (∀ i : Int, tr = some i → 0 < i →
      ∃ ts, runDebate d c (JSVal.str s) tr = Except.ok ts ∧
        ts.length = 2 * i.toNat ∧
        (∀ j t, ts[j]? = some t →
          t.speaker = if j % 2 = 0 then "Critic" else "Defender")) := by
  constructor
  · intro h
    refine runDebate_success_length d c hd hc s hs tr 3 ?_
    rcases h with rfl | ⟨i, rfl, hi⟩
    · rfl
    · have hni : ¬ (0 : Int) < i := not_lt.mpr hi
      simp [jsRounds, hni]
  · intro i hi h0
    subst hi
    refine runDebate_success_length d c hd hc s hs (some i) i.toNat ?_
    simp [jsRounds, h0]

/-- Witness for C9: a negative round count is coerced to 3 rounds (6 turns). -/
theorem runDebate_rounds_coercion_witness :
    ∃ ts, runDebate okActor okActor (JSVal.str "t") (some (-1 : Int)) =
        Except.ok ts ∧
      ts.length = 2 * 3 ∧
      (∀ j t, ts[j]? = some t →
        t.speaker = if j % 2 = 0 then "Critic" else "Defender") :=
  (runDebate_rounds_coercion okActor okActor okActor_succeeds okActor_succeeds
    "t" (by decide) (some (-1 : Int))).1 (Or.inr ⟨-1, rfl, by decide⟩)

/-- C6: with a valid topic and both actors succeeding on every call, each
call `j` of the run (calls alternate Critic, Defender, ...; two per round)
receives as prior context the full transcript produced so far serialized as
`"{speaker}: {text}"` lines — the sentinel value on the very first call,
when the transcript is empty — and every call after the first receives an
instruction that ends verbatim in the text of the immediately preceding
turn: the Defender of round k is shown the Critic round-k text, the Critic
of round k > 1 is shown the Defender round-(k-1) text. -/
theorem runDebate_round_content (d c : ActorRef) (hd : alwaysSucceeds d)
    (hc : alwaysSucceeds c) (s : String) (hs : jsTrim s ≠ "") (tr : Option Int) :
    (runDebateBody d c (JSVal.str s) tr).err = none ∧
    (runDebateBody d c (JSVal.str s) tr).calls.length = 2 * jsRounds tr ∧
    (runDebateBody d c (JSVal.str s) tr).transcript.length = 2 * jsRounds tr ∧
    (∀ j cl, (runDebateBody d c (JSVal.str s) tr).calls[j]? = some cl →
      cl.role = if j % 2 = 0 then "Critic" else "Defender") ∧
    (∀ j cl, (runDebateBody d c (JSVal.str s) tr).calls[j]? = some cl →
      cl.priorContext = if j = 0 then noTurnsSentinel
        else serializeTranscript
          ((runDebateBody d c (JSVal.str s) tr).transcript.take j)) ∧
    (∀ j cl, (runDebateBody d c (JSVal.str s) tr).calls[j]? = some cl → 1 ≤ j →
      ∃ p tn, (runDebateBody d c (JSVal.str s) tr).transcript[j - 1]? = some tn ∧
        cl.topic = p ++ tn.text) := by
  obtain ⟨ext, htr, herr, hlenE, hlenC, _, hrole, hctx, htop⟩ :=
    debateLoop_success d c hd hc (jsRounds tr) 1 (jsTrim s) [] (Or.inl ⟨rfl, rfl⟩)
  have hbody := runDebateBody_valid d c s hs tr
  rw [List.nil_append] at htr
  simp only [List.length_nil, List.nil_append, Nat.zero_add] at hctx htop
  rw [hbody]
  refine ⟨herr, hlenC, ?_, hrole, ?_, ?_⟩
  · rw [htr]
    exact hlenE
  · intro j cl hj
    rw [htr]
    exact hctx j cl hj
  · intro j cl hj h1
    rw [htr]
    exact htop j cl hj h1

/-- Witness for C6: the round-content properties evaluated on a one-round
echo run. -/
theorem runDebate_round_content_witness :
    (runDebateBody okActor okActor (JSVal.str "t") (some 1)).err = none ∧
    (runDebateBody okActor okActor (JSVal.str "t") (some 1)).calls.length =
      2 * jsRounds (some 1) ∧
    (runDebateBody okActor okActor (JSVal.str "t") (some 1)).transcript.length =
      2 * jsRounds (some 1) ∧
    (∀ j cl,
      (runDebateBody okActor okActor (JSVal.str "t") (some 1)).calls[j]? =
          some cl →
      cl.role = if j % 2 = 0 then "Critic" else "Defender") ∧
    (∀ j cl,
      (runDebateBody okActor okActor (JSVal.str "t") (some 1)).calls[j]? =
          some cl →
      cl.priorContext = if j = 0 then noTurnsSentinel
        else serializeTranscript
          ((runDebateBody okActor okActor (JSVal.str "t")
            (some 1)).transcript.take j)) ∧
    (∀ j cl,
      (runDebateBody okActor okActor (JSVal.str "t") (some 1)).calls[j]? =
          some cl →
      1 ≤ j →
      ∃ p tn,
        (runDebateBody okActor okActor (JSVal.str "t")
          (some 1)).transcript[j - 1]? = some tn ∧
        cl.topic = p ++ tn.text) :=
  runDebate_round_content okActor okActor okActor_succeeds okActor_succeeds
    "t" (by decide) (some 1)

/-- The coerced round count is always at least one. -/
lemma jsRounds_pos (tr : Option Int) : 1 ≤ jsRounds tr := by
  rcases tr with _ | i
  · simp [jsRounds]
  · by_cases h : 0 < i
    · simp only [jsRounds, if_pos h]
      omega
    · simp [jsRounds, h]

/-- On a valid topic the spec orchestrator is the round loop started at
round 1, check index 0, with an empty transcript. -/
lemma specRunDebate_valid (cancel : Nat → Bool)
    (cB dB : Nat → Except String String) (s : String) (hs : jsTrim s ≠ "")
    (tr : Option Int) :
    specRunDebate cancel cB dB (JSVal.str s) tr =
      specLoop cancel cB dB (jsRounds tr) 1 0 [] := by
  simp [specRunDebate, hs]


/-- Trace of a round that observes cancellation at the round-start check. -/
lemma specLoop_trace_cancel0 (cancel : Nat → Bool)
    (cB dB : Nat → Except String String) (r n k : Nat) (t0 : List Turn)
    (hk : cancel k = true) :
    (specLoop cancel cB dB (r + 1) n k t0).trace =
      [SpecEvent.roundCheck n true] := by
  simp [specLoop, hk]

/-- Trace of a round whose Critic call fails. -/
lemma specLoop_trace_criticFail (cancel : Nat → Bool)
    (cB dB : Nat → Except String String) (r n k : Nat) (t0 : List Turn)
    (e1 : String) (hk : cancel k = false) (hcb : cB n = Except.error e1) :
    (specLoop cancel cB dB (r + 1) n k t0).trace =
      [SpecEvent.roundCheck n false, SpecEvent.criticCall n] := by
  simp [specLoop, hk, hcb]

/-- Trace of a round that observes cancellation during the critic-side
pacing wait. -/
lemma specLoop_trace_cancel1 (cancel : Nat → Bool)
    (cB dB : Nat → Except String String) (r n k : Nat) (t0 : List Turn)
    (ct : String) (hk : cancel k = false) (hcb : cB n = Except.ok ct)
    (h1 : cancel (k + 1) = true) :
    (specLoop cancel cB dB (r + 1) n k t0).trace =
      [SpecEvent.roundCheck n false, SpecEvent.criticCall n,
        SpecEvent.criticTurn n, SpecEvent.criticPacing n true] := by
  simp [specLoop, hk, hcb, h1]

/-- Trace of a round whose Defender call fails. -/
lemma specLoop_trace_defenderFail (cancel : Nat → Bool)
    (cB dB : Nat → Except String String) (r n k : Nat) (t0 : List Turn)
    (ct e1 : String) (hk : cancel k = false) (hcb : cB n = Except.ok ct)
    (h1 : cancel (k + 1) = false) (hdb : dB n = Except.error e1) :
    (specLoop cancel cB dB (r + 1) n k t0).trace =
      [SpecEvent.roundCheck n false, SpecEvent.criticCall n,
        SpecEvent.criticTurn n, SpecEvent.criticPacing n false,
        SpecEvent.defenderCall n] := by
  simp [specLoop, hk, hcb, h1, hdb]

/-- Trace of a round that observes cancellation during the defender-side
pacing wait. -/
lemma specLoop_trace_cancel2 (cancel : Nat → Bool)
    (cB dB : Nat → Except String String) (r n k : Nat) (t0 : List Turn)
    (ct dt : String) (hk : cancel k = false) (hcb : cB n = Except.ok ct)
    (h1 : cancel (k + 1) = false) (hdb : dB n = Except.ok dt)
    (h2 : cancel (k + 2) = true) :
    (specLoop cancel cB dB (r + 1) n k t0).trace =
      [SpecEvent.roundCheck n false, SpecEvent.criticCall n,
        SpecEvent.criticTurn n, SpecEvent.criticPacing n false,
        SpecEvent.defenderCall n, SpecEvent.defenderTurn n,
        SpecEvent.defenderPacing n true] := by
  simp [specLoop, hk, hcb, h1, hdb, h2]

/-- Trace of a fully completed round followed by the rest of the run. -/
lemma specLoop_trace_step (cancel : Nat → Bool)
    (cB dB : Nat → Except String String) (r n k : Nat) (t0 : List Turn)
    (ct dt : String) (hk : cancel k = false) (hcb : cB n = Except.ok ct)
    (h1 : cancel (k + 1) = false) (hdb : dB n = Except.ok dt)
    (h2 : cancel (k + 2) = false) :
    (specLoop cancel cB dB (r + 1) n k t0).trace =
      SpecEvent.roundCheck n false :: SpecEvent.criticCall n ::
      SpecEvent.criticTurn n :: SpecEvent.criticPacing n false ::
      SpecEvent.defenderCall n :: SpecEvent.defenderTurn n ::
      SpecEvent.defenderPacing n false ::
      (specLoop cancel cB dB r (n + 1) (k + 3)
        (t0 ++ [⟨"Critic", ct⟩, ⟨"Defender", dt⟩])).trace := by
  simp [specLoop, hk, hcb, h1, hdb, h2]

/-- In the spec orchestrator trace, an event that observes cancellation is
always the final event: the orchestrator moves to the absorbing Cancelled
state the moment a check observes the flag. -/
lemma specLoop_obsCancel_last (cancel : Nat → Bool)
    (cB dB : Nat → Except String String) :
    ∀ remaining n k t0 i e,
      (specLoop cancel cB dB remaining n k t0).trace[i]? = some e →
      observesCancel e = true →
      i + 1 = (specLoop cancel cB dB remaining n k t0).trace.length := by
  intro remaining
  induction remaining with
  | zero =>
    intro n k t0 i e h _
    simp [specLoop] at h
  | succ r ih =>
    intro n k t0 i e h hobs
    cases hk : cancel k with
    | true =>
      rw [specLoop_trace_cancel0 cancel cB dB r n k t0 hk] at h ⊢
      have hlt : i < 1 := by
        by_contra hge
        push_neg at hge
        rw [List.getElem?_eq_none (by simpa using hge)] at h
        exact Option.noConfusion h
      interval_cases i
      simp only [List.getElem?_cons_zero, Option.some.injEq] at h
      subst h
      simp_all [observesCancel]
    | false =>
      rcases hcb : cB n with e1 | ct
      · rw [specLoop_trace_criticFail cancel cB dB r n k t0 e1 hk hcb] at h ⊢
        have hlt : i < 2 := by
          by_contra hge
          push_neg at hge
          rw [List.getElem?_eq_none (by simpa using hge)] at h
          exact Option.noConfusion h
        interval_cases i <;>
          (simp only [List.getElem?_cons_zero, List.getElem?_cons_succ,
            Option.some.injEq] at h;
           subst h;
           simp_all [observesCancel])
      · cases h1 : cancel (k + 1) with
        | true =>
          rw [specLoop_trace_cancel1 cancel cB dB r n k t0 ct hk hcb h1] at h ⊢
          have hlt : i < 4 := by
            by_contra hge
            push_neg at hge
            rw [List.getElem?_eq_none (by simpa using hge)] at h
            exact Option.noConfusion h
          interval_cases i <;>
          (simp only [List.getElem?_cons_zero, List.getElem?_cons_succ,
            Option.some.injEq] at h;
           subst h;
           simp_all [observesCancel])
        | false =>
          rcases hdb : dB n with e1 | dt
          · rw [specLoop_trace_defenderFail cancel cB dB r n k t0 ct e1
              hk hcb h1 hdb] at h ⊢
            have hlt : i < 5 := by
              by_contra hge
              push_neg at hge
              rw [List.getElem?_eq_none (by simpa using hge)] at h
              exact Option.noConfusion h
            interval_cases i <;>
          (simp only [List.getElem?_cons_zero, List.getElem?_cons_succ,
            Option.some.injEq] at h;
           subst h;
           simp_all [observesCancel])
          · cases h2 : cancel (k + 2) with
            | true =>
              rw [specLoop_trace_cancel2 cancel cB dB r n k t0 ct dt
                hk hcb h1 hdb h2] at h ⊢
              have hlt : i < 7 := by
                by_contra hge
                push_neg at hge
                rw [List.getElem?_eq_none (by simpa using hge)] at h
                exact Option.noConfusion h
              interval_cases i <;>
          (simp only [List.getElem?_cons_zero, List.getElem?_cons_succ,
            Option.some.injEq] at h;
           subst h;
           simp_all [observesCancel])
            | false =>
              rw [specLoop_trace_step cancel cB dB r n k t0 ct dt
                hk hcb h1 hdb h2] at h ⊢
              match i with
              | 0 =>
                simp only [List.getElem?_cons_zero, Option.some.injEq] at h
                subst h
                simp [observesCancel] at hobs
              | 1 =>
                simp only [List.getElem?_cons_succ, List.getElem?_cons_zero,
                  Option.some.injEq] at h
                subst h
                simp [observesCancel] at hobs
              | 2 =>
                simp only [List.getElem?_cons_succ, List.getElem?_cons_zero,
                  Option.some.injEq] at h
                subst h
                simp [observesCancel] at hobs
              | 3 =>
                simp only [List.getElem?_cons_succ, List.getElem?_cons_zero,
                  Option.some.injEq] at h
                subst h
                simp [observesCancel] at hobs
              | 4 =>
                simp only [List.getElem?_cons_succ, List.getElem?_cons_zero,
                  Option.some.injEq] at h
                subst h
                simp [observesCancel] at hobs
              | 5 =>
                simp only [List.getElem?_cons_succ, List.getElem?_cons_zero,
                  Option.some.injEq] at h
                subst h
                simp [observesCancel] at hobs
              | 6 =>
                simp only [List.getElem?_cons_succ, List.getElem?_cons_zero,
                  Option.some.injEq] at h
                subst h
                simp [observesCancel] at hobs
              | i + 7 =>
                simp only [List.getElem?_cons_succ] at h
                have hrec := ih (n + 1) (k + 3)
                  (t0 ++ [⟨"Critic", ct⟩, ⟨"Defender", dt⟩]) i e h hobs
                simp only [List.length_cons]
                omega

/-- C3: in the spec orchestrator, if cancellation is already requested at the
very first round-start check (check index 0), the run produces zero
Critic/Defender turns — the transcript is exactly one System turn — with
outcome Cancelled, and its trace is the single first-round check, so no
actor was ever called; moreover, in every run, an event observing
cancellation is followed by no further event at all, in particular by no
actor call. -/
theorem specRunDebate_cancellation (cancel : Nat → Bool)
    (cB dB : Nat → Except String String) (s : String) (hs : jsTrim s ≠ "")
    (tr : Option Int) :
    (cancel 0 = true →
      specRunDebate cancel cB dB (JSVal.str s) tr =
        ⟨[cancelledTurn], [SpecEvent.roundCheck 1 true],
          SpecOutcome.cancelled⟩) ∧
    (∀ (i j : Nat) (e e2 : SpecEvent), i < j →
      (specRunDebate cancel cB dB (JSVal.str s) tr).trace[i]? = some e →
      observesCancel e = true →
      (specRunDebate cancel cB dB (JSVal.str s) tr).trace[j]? = some e2 →
      isActorCall e2 = false) := by
  constructor
  · intro hk
    rw [specRunDebate_valid cancel cB dB s hs tr]
    obtain ⟨m, hm⟩ := Nat.exists_eq_add_of_le (jsRounds_pos tr)
    rw [hm, Nat.add_comm]
    simp [specLoop, hk]
  · intro i j e e2 hij hi hobs hj
    rw [specRunDebate_valid cancel cB dB s hs tr] at hi hj
    have hlast := specLoop_obsCancel_last cancel cB dB (jsRounds tr) 1 0 []
      i e hi hobs
    have hnone : (specLoop cancel cB dB (jsRounds tr) 1 0 []).trace[j]? =
        none := List.getElem?_eq_none (by omega)
    rw [hnone] at hj
    exact Option.noConfusion hj

/-- Witness for C3: with the flag set from the start and echo actors, the
run is exactly the one-System-turn cancelled run; and the second conjunct is
vacuously checked on its one-event trace. -/
theorem specRunDebate_cancellation_witness :
    specRunDebate (fun _ => true) (fun _ => Except.ok "x")
        (fun _ => Except.ok "x") (JSVal.str "t") none =
      ⟨[cancelledTurn], [SpecEvent.roundCheck 1 true],
        SpecOutcome.cancelled⟩ :=
  (specRunDebate_cancellation (fun _ => true) (fun _ => Except.ok "x")
    (fun _ => Except.ok "x") "t" (by decide) none).1 rfl

/-- The trace of a run with at least one remaining round starts with the
round-start check of its first round. -/
lemma specLoop_trace_head (cancel : Nat → Bool)
    (cB dB : Nat → Except String String) (r n k : Nat) (t0 : List Turn) :
    (specLoop cancel cB dB (r + 1) n k t0).trace.head? =
      some (SpecEvent.roundCheck n (cancel k)) := by
  cases hk : cancel k with
  | true => rw [specLoop_trace_cancel0 cancel cB dB r n k t0 hk]; rfl
  | false =>
    rcases hcb : cB n with e1 | ct
    · rw [specLoop_trace_criticFail cancel cB dB r n k t0 e1 hk hcb]; rfl
    · cases h1 : cancel (k + 1) with
      | true => rw [specLoop_trace_cancel1 cancel cB dB r n k t0 ct hk hcb h1]; rfl
      | false =>
        rcases hdb : dB n with e1 | dt
        · rw [specLoop_trace_defenderFail cancel cB dB r n k t0 ct e1
            hk hcb h1 hdb]; rfl
        · cases h2 : cancel (k + 2) with
          | true => rw [specLoop_trace_cancel2 cancel cB dB r n k t0 ct dt
              hk hcb h1 hdb h2]; rfl
          | false => rw [specLoop_trace_step cancel cB dB r n k t0 ct dt
              hk hcb h1 hdb h2]; rfl

/-- The spec orchestrator trace obeys the pacing adjacency discipline in
every round and for every behaviour. -/
lemma specLoop_chain (cancel : Nat → Bool)
    (cB dB : Nat → Except String String) :
    ∀ remaining n k t0,
      List.Chain' pacedBefore (specLoop cancel cB dB remaining n k t0).trace := by
  intro remaining
  induction remaining with
  | zero =>
    intro n k t0
    simp [specLoop]
  | succ r ih =>
    intro n k t0
    cases hk : cancel k with
    | true =>
      rw [specLoop_trace_cancel0 cancel cB dB r n k t0 hk]
      simp
    | false =>
      rcases hcb : cB n with e1 | ct
      · rw [specLoop_trace_criticFail cancel cB dB r n k t0 e1 hk hcb]
        simp [List.chain'_cons, pacedBefore]
      · cases h1 : cancel (k + 1) with
        | true =>
          rw [specLoop_trace_cancel1 cancel cB dB r n k t0 ct hk hcb h1]
          simp [List.chain'_cons, pacedBefore]
        | false =>
          rcases hdb : dB n with e1 | dt
          · rw [specLoop_trace_defenderFail cancel cB dB r n k t0 ct e1
              hk hcb h1 hdb]
            simp [List.chain'_cons, pacedBefore]
          · cases h2 : cancel (k + 2) with
            | true =>
              rw [specLoop_trace_cancel2 cancel cB dB r n k t0 ct dt
                hk hcb h1 hdb h2]
              simp [List.chain'_cons, pacedBefore]
            | false =>
              rw [specLoop_trace_step cancel cB dB r n k t0 ct dt
                hk hcb h1 hdb h2]
              refine List.chain'_cons.mpr ⟨by simp [pacedBefore], ?_⟩
              refine List.chain'_cons.mpr ⟨by simp [pacedBefore], ?_⟩
              refine List.chain'_cons.mpr ⟨by simp [pacedBefore], ?_⟩
              refine List.chain'_cons.mpr ⟨by simp [pacedBefore], ?_⟩
              refine List.chain'_cons.mpr ⟨by simp [pacedBefore], ?_⟩
              refine List.chain'_cons.mpr ⟨by simp [pacedBefore], ?_⟩
              rw [List.chain'_cons']
              constructor
              · intro y hy
                cases r with
                | zero => simp [specLoop] at hy
                | succ r2 =>
                  rw [specLoop_trace_head cancel cB dB r2 (n + 1) (k + 3)
                    (t0 ++ [(⟨"Critic", ct⟩ : Turn), (⟨"Defender", dt⟩ : Turn)])] at hy
                  simp only [Option.mem_def, Option.some.injEq] at hy
                  subst hy
                  simp [pacedBefore]
              · exact ih (n + 1) (k + 3) (t0 ++ [⟨"Critic", ct⟩, ⟨"Defender", dt⟩])

/-- C8: in every round of the spec orchestrator and for every input,
cancellation pattern and actor behaviour, a Defender call is directly
preceded by the (completed, uncancelled) critic-side pacing wait of its
round — the wait sits between the appended Critic turn and the Defender
invocation — and the round-start check of round n (and hence the Critic call
it directly precedes) is directly preceded by the defender-side pacing wait
of round n-1. -/
theorem specRunDebate_pacing (cancel : Nat → Bool)
    (cB dB : Nat → Except String String) (topic : JSVal) (tr : Option Int) :
    List.Chain' pacedBefore (specRunDebate cancel cB dB topic tr).trace := by
  cases topic with
  | nonString => simp [specRunDebate]
  | str s =>
    by_cases hs : jsTrim s = ""
    · simp [specRunDebate, hs]
    · rw [specRunDebate_valid cancel cB dB s hs tr]
      exact specLoop_chain cancel cB dB (jsRounds tr) 1 0 []
